import Mathlib

/-!
# Verification of the telegraf `logparser` input plugin

Shallow embedding of the two source files

* `plugins/inputs/logparser/grok/grok.go` — the grok `Parser`
  (`Compile`, `ParseLine`, `addCustomPatterns`);
* `plugins/inputs/logparser/logparser.go` — the `LogParserPlugin`
  (`Start`, per-file receiver bookkeeping, `Stop`).

Go maps with string keys and string values are embedded as association
lists (`List (String × String)`) with `mapSet` / `mapGet` mirroring map
assignment and lookup.  External collaborators that are not part of the
two source files (the vjeantet/grok engine, `internal.CompileFilter`
with gobwas/glob, `internal/globpath`, hpcloud/tail) are modelled from
the specification and clearly marked as such; everything else is
translated statement by statement from the Go source.
-/

namespace Logparser

/-- Go map assignment `m[k] = v` on an association-list embedding of a
`map[string]string`: overwrite in place if the key is present, append
otherwise. -/
def mapSet : List (String × String) → String → String → List (String × String)
  | [], k, v => [(k, v)]
  | (k0, v0) :: rest, k, v =>
    if k0 = k then (k, v) :: rest else (k0, v0) :: mapSet rest k v

/-- Go map lookup `m[k]` (the `, ok` form): `some v` when the key is
present, `none` otherwise. -/
def mapGet : List (String × String) → String → Option String
  | [], _ => none
  | (k0, v0) :: rest, k => if k0 = k then some v0 else mapGet rest k

/-- Modelled from the spec: a single glob pattern of the key filters
("Glob filter: a wildcard-based key-matching predicate").  `*` matches
any (possibly empty) character sequence, every other character matches
itself.  Fuel-based structural recursion; the initial fuel
`pat.length + s.length + 1` is enough for every reachable call. -/
def globMatchFuel : Nat → List Char → List Char → Bool
  | _, [], [] => true
  | _, [], _ :: _ => false
  | 0, _ :: _, _ => false
  | fuel + 1, p :: ps, cs =>
    if p = '*' then
      globMatchFuel fuel ps cs ||
        (match cs with
         | [] => false
         | _ :: cs2 => globMatchFuel fuel (p :: ps) cs2)
    else
      match cs with
      | [] => false
      | c :: cs2 => p = c && globMatchFuel fuel ps cs2

def globMatch (pat s : String) : Bool :=
  globMatchFuel (pat.length + s.length + 1) pat.toList s.toList

/-- Modelled from the spec: `internal.CompileFilter` compiles a
non-empty list of glob strings into one matcher; a key matches the
compiled filter iff it matches one of the globs. -/
def compileFilter (filters : List String) : String → Bool :=
  fun k => filters.any (fun pat => globMatch pat k)

/-- The grok `Parser` configuration struct (`grok.go`, lines 16–31):
the exported, user-configured fields. -/
structure GrokParser where
  Pattern : String
  CustomPatterns : String
  CustomPatternFile : String
  TagKeys : List String
  FieldKeysStr : List String
  FieldKeysInt : List String
  FieldKeysFloat : List String

/-- Modelled from the spec: the external collaborators used by
`Parser.Compile` / `Parser.ParseLine` that are not part of the two
source files — the vjeantet/grok engine.  `parse` is the behaviour of
`g.Parse(pattern, line)` after pattern registration: `.ok captures` on
a match, `.error e` when the line does not match the grammar or the
grammar itself fails ("no match or a grammar-internal failure ⇒
ParseError"). -/
structure GrokEnv where
  addPatternsFromPath : String → Except String Unit
  addPatternsFromMap : List (String × String) → Except String Unit
  parse : String → String → Except String (List (String × String))

/-- Outcome of a Go function call: normal return value, returned
`error`, or a runtime panic (which Go does not surface as an error
value). -/
inductive GoResult (α : Type) where
  | ok : α → GoResult α
  | err : String → GoResult α
  | panicked : String → GoResult α
deriving DecidableEq

/-- The compiled parser: the unexported matcher fields set by
`Parser.Compile` (`nil` glob is `none`) together with the grammar
engine. -/
structure CompiledParser where
  pattern : String
  g : String → String → Except String (List (String × String))
  tagKeys : Option (String → Bool)
  fieldKeysStr : Option (String → Bool)
  fieldKeysInt : Option (String → Bool)
  fieldKeysFloat : Option (String → Bool)

/-- Split a character list at every occurrence of `sep`
(`strings.Split` on one character). -/
def splitOnChar (sep : Char) : List Char → List (List Char)
  | [] => [[]]
  | c :: rest =>
    match splitOnChar sep rest with
    | [] => if c = sep then [[], []] else [[c]]
    | h :: t => if c = sep then [] :: h :: t else (c :: h) :: t

/-- `bufio.Scanner` with the default `ScanLines` split over a string:
lines are separated by `\n`, a final trailing newline produces no extra
empty line, and the empty input produces no lines (a trailing empty
token can only come from a trailing separator or the empty input). -/
def goScanLines (s : String) : List (List Char) :=
  let ls := splitOnChar '\n' s.toList
  if ls.getLast? = some [] then ls.dropLast else ls

/-- `unicode.IsSpace` restricted to the ASCII whitespace characters Go
trims (space, tab, newline, vertical tab, form feed, carriage
return). -/
def isGoSpace (c : Char) : Bool :=
  c = ' ' || c = '\t' || c = '\n' || c = '\r' ||
    c = Char.ofNat 11 || c = Char.ofNat 12

/-- `strings.TrimSpace` on a character list: drop leading and trailing
whitespace. -/
def trimSpace (l : List Char) : List Char :=
  ((l.dropWhile isGoSpace).reverse.dropWhile isGoSpace).reverse

/-- Split at the first space: `some (before, after)` when the list
contains a space, `none` otherwise.  `strings.SplitN(l, " ", 2)`
returns `[before, after]` in the first case and the one-element slice
`[l]` in the second. -/
def splitAtFirstSpace : List Char → Option (List Char × List Char)
  | [] => none
  | c :: rest =>
    if c = ' ' then some ([], rest)
    else
      match splitAtFirstSpace rest with
      | none => none
      | some (a, b) => some (c :: a, b)

/-- The scanner loop of `Parser.addCustomPatterns` (`grok.go`, lines
129–136): trim each line, keep lines that are non-empty and do not
start with `#` (`len(l) > 0 && l[0] != '#'`), split a kept line at the
first space into `names := strings.SplitN(l, " ", 2)` and store
`filePatterns[names[0]] = names[1]`.  When a kept line contains no
space, `names` has length 1 and the Go code's `names[1]` panics with an
index-out-of-range runtime error. -/
def buildFilePatterns : List (List Char) → List (String × String) →
    GoResult (List (String × String))
  | [], acc => .ok acc
  | line :: rest, acc =>
    match trimSpace line with
    | [] => buildFilePatterns rest acc
    | c0 :: ltail =>
      if c0 = '#' then buildFilePatterns rest acc
      else
        match splitAtFirstSpace (c0 :: ltail) with
        | none => .panicked "runtime error: index out of range"
        | some (name, frag) =>
          buildFilePatterns rest
            (mapSet acc (String.mk name) (String.mk frag))

/-- `Parser.addCustomPatterns` (`grok.go`, lines 126–139): build the
`filePatterns` map from `p.CustomPatterns` and hand it to the grok
engine's `AddPatternsFromMap`. -/
def GrokParser.addCustomPatterns (p : GrokParser) (env : GrokEnv) :
    GoResult Unit :=
  match buildFilePatterns (goScanLines p.CustomPatterns) [] with
  | .panicked m => .panicked m
  | .err e => .err e
  | .ok pats =>
    match env.addPatternsFromMap pats with
    | .error e => .err e
    | .ok _ => .ok ()

/-- `Parser.Compile` (`grok.go`, lines 33–77): create the engine, add
the custom pattern file (when set), add the inline custom patterns
(when set), then compile each of the four key filters — each only when
its configured list is non-empty, leaving the matcher `nil` (= `none`)
otherwise. -/
def GrokParser.compile (p : GrokParser) (env : GrokEnv) :
    GoResult CompiledParser :=
  match (if p.CustomPatternFile ≠ "" then
           match env.addPatternsFromPath p.CustomPatternFile with
           | .error e => GoResult.err e
           | .ok _ => GoResult.ok ()
         else GoResult.ok ()) with
  | .err e => .err e
  | .panicked m => .panicked m
  | .ok _ =>
    match (if p.CustomPatterns ≠ "" then p.addCustomPatterns env
           else GoResult.ok ()) with
    | .err e => .err e
    | .panicked m => .panicked m
    | .ok _ =>
      .ok { pattern := p.Pattern
            g := env.parse
            tagKeys :=
              if p.TagKeys.length > 0 then some (compileFilter p.TagKeys)
              else none
            fieldKeysStr :=
              if p.FieldKeysStr.length > 0 then
                some (compileFilter p.FieldKeysStr)
              else none
            fieldKeysInt :=
              if p.FieldKeysInt.length > 0 then
                some (compileFilter p.FieldKeysInt)
              else none
            fieldKeysFloat :=
              if p.FieldKeysFloat.length > 0 then
                some (compileFilter p.FieldKeysFloat)
              else none }

/-- The measurement built by `ParseLine` via
`telegraf.NewMetric("grok", tags, fields, time.Now())`.  All extracted
field values are strings (classification routes keys, it does not
convert value representations); the wall-clock timestamp is passed in
as a parameter. -/
structure Metric where
  name : String
  tags : List (String × String)
  fields : List (String × String)
  time : Nat
deriving DecidableEq

/-- The field-filter cascade of `ParseLine` (`grok.go`, lines 99–120),
which runs after the tag-key check: for each of `fieldKeysInt`,
`fieldKeysFloat`, `fieldKeysStr` in that order, when the matcher is
non-nil the key is stored iff it matches and the loop `continue`s
either way (the `continue` sits outside the `Match` branch); when all
three matchers are nil the key is stored unconditionally. -/
def fieldPhase (p : CompiledParser)
    (acc : List (String × String) × List (String × String))
    (c : String × String) :
    List (String × String) × List (String × String) :=
  match p.fieldKeysInt with
  | some m => if m c.1 then (acc.1, mapSet acc.2 c.1 c.2) else acc
  | none =>
    match p.fieldKeysFloat with
    | some m => if m c.1 then (acc.1, mapSet acc.2 c.1 c.2) else acc
    | none =>
      match p.fieldKeysStr with
      | some m => if m c.1 then (acc.1, mapSet acc.2 c.1 c.2) else acc
      | none => (acc.1, mapSet acc.2 c.1 c.2)

/-- One iteration of the `for k, v := range values` loop of `ParseLine`
(`grok.go`, lines 87–121): skip captures with empty name or empty
value; a key matching a non-nil `tagKeys` goes to the tag map and the
loop continues; otherwise the field-filter cascade runs. -/
def processCapture (p : CompiledParser)
    (acc : List (String × String) × List (String × String))
    (c : String × String) :
    List (String × String) × List (String × String) :=
  if c.1 = "" ∨ c.2 = "" then acc
  else
    match p.tagKeys with
    | some m => if m c.1 then (mapSet acc.1 c.1 c.2, acc.2) else fieldPhase p acc c
    | none => fieldPhase p acc c

/-- `Parser.ParseLine` (`grok.go`, lines 79–124): run the grammar on
the line; on error return it with no measurement; otherwise classify
every capture and build the `"grok"` measurement with the current
time. -/
def parseLine (p : CompiledParser) (line : String) (now : Nat) :
    Except String Metric :=
  match p.g p.pattern line with
  | .error e => .error e
  | .ok values =>
    let r := values.foldl (processCapture p) ([], [])
    .ok { name := "grok", tags := r.1, fields := r.2, time := now }

/-- Where the classification of `ParseLine` sends a (non-empty) capture
key: the tag map, the field map, or nowhere (the capture is
discarded). -/
inductive Route where
  | toTag
  | toField
  | dropped
deriving DecidableEq

/-- Spec-side description of the field-filter cascade as the code
actually behaves (the amended classification contract): only the first
*configured* field set among int > float > string is consulted — the
key is stored iff it matches that set and is dropped otherwise; the
string-field default applies only when no field set is configured at
all. -/
def fieldRoute (p : CompiledParser) (k : String) : Route :=
  match p.fieldKeysInt with
  | some m => if m k then .toField else .dropped
  | none =>
    match p.fieldKeysFloat with
    | some m => if m k then .toField else .dropped
    | none =>
      match p.fieldKeysStr with
      | some m => if m k then .toField else .dropped
      | none => .toField

/-- Spec-side description of the full classification: a key matching a
configured tag filter goes to tags (tag has top priority); otherwise
the field-filter cascade decides. -/
def route (p : CompiledParser) (k : String) : Route :=
  match p.tagKeys with
  | some m => if m k then .toTag else fieldRoute p k
  | none => fieldRoute p k

/-! ## `logparser.go`: the plugin's `Start` -/

/-- A configured parser seen through the `LogParser` interface
(`logparser.go`, lines 19–22).  `Start` only calls `Compile()`, so at
the interface level a parser is the outcome of that call. -/
structure IfaceParser where
  compileResult : Except String Unit

/-- The `LogParserPlugin` configuration relevant to `Start`
(`logparser.go`, lines 24–38): file globs, the from-beginning flag and
the optional grok parser sub-table. -/
structure LogParserPlugin where
  Files : List String
  FromBeginning : Bool
  GrokParser : Option IfaceParser

/-- Modelled from the spec: the external collaborators of `Start` that
are not part of the two source files.  `globCompile` is
`globpath.Compile` followed by `g.Match()` — `.ok files` gives the
concrete paths a pattern resolves to; `.error e` is a glob compile
failure, in which case the Go code only logs and the pattern
contributes no files.  `tailFile` is `tail.TailFile` on one resolved
path: `.ok session` names the opened tail session, `.error e` carries
the open error's message. -/
structure StartEnv where
  globCompile : String → Except String (List String)
  tailFile : String → Except String String

/-- Result of `Start`: the returned `error` (as `Option String`) and
the list of tail sessions that were opened, appended to `l.tailers` —
one receiver goroutine (dispatcher) is spawned per listed session. -/
structure StartResult where
  err : Option String
  tailers : List String
deriving DecidableEq

/-- The reflection loop of `Start` (`logparser.go`, lines 88–104): the
only field of `LogParserPlugin` implementing `LogParser` is
`GrokParser`, and a nil pointer is skipped, so the active-parser list
is `[gp]` when the grok sub-table is present and `[]` otherwise. -/
def activeParsers (l : LogParserPlugin) : List IfaceParser :=
  match l.GrokParser with
  | some gp => [gp]
  | none => []

/-- The compile loop of `Start` (`logparser.go`, lines 110–115):
compile each active parser in order, returning the first error. -/
def compileAll : List IfaceParser → Except String Unit
  | [] => .ok ()
  | p :: ps =>
    match p.compileResult with
    | .error e => .error e
    | .ok _ => compileAll ps

/-- One `tail.TailFile` attempt inside the per-pattern loop of `Start`
(`logparser.go`, lines 131–144): on error append the message plus a
space to `errS` and continue; on success record the session (and spawn
its receiver goroutine). -/
def tailOne (env : StartEnv) (acc : String × List String) (file : String) :
    String × List String :=
  match env.tailFile file with
  | .error e => (acc.1 ++ e ++ " ", acc.2)
  | .ok t => (acc.1, acc.2 ++ [t])

/-- One iteration of the `for _, filepath := range l.Files` loop of
`Start` (`logparser.go`, lines 125–146): a glob compile failure is only
logged (`log.Printf`) — nothing is added to `errS` and the pattern
yields no sessions; otherwise every matched file is attempted. -/
def tailPattern (env : StartEnv) (acc : String × List String)
    (fp : String) : String × List String :=
  match env.globCompile fp with
  | .error _ => acc
  | .ok files => files.foldl (tailOne env) acc

/-- The error message of `logparser.go`, line 107. -/
def noParsersMsg : String :=
  "ERROR: logparser input plugin: no parsers defined."

/-- `LogParserPlugin.Start` (`logparser.go`, lines 82–152): resolve the
active parsers (fatal error when none), compile them all (abort on the
first failure), then walk the file globs opening one tail session per
matched file, collecting open errors into `errS`; return the
concatenated open errors if any, else nil. -/
def start (l : LogParserPlugin) (env : StartEnv) : StartResult :=
  let parsers := activeParsers l
  if parsers.isEmpty then { err := some noParsersMsg, tailers := [] }
  else
    match compileAll parsers with
    | .error e => { err := some e, tailers := [] }
    | .ok _ =>
      let r := l.Files.foldl (tailPattern env) ("", [])
      { err := if r.1 ≠ "" then some r.1 else none, tailers := r.2 }

/-! ## Spec-side descriptions used by the refinement statements -/

/-- Spec-side description: the concrete files the configured patterns
resolve to, in configuration order, with a pattern that fails to glob
compile contributing none. -/
def resolvedFiles (env : StartEnv) : List String → List String
  | [] => []
  | fp :: fps =>
    (match env.globCompile fp with
     | .error _ => []
     | .ok files => files) ++ resolvedFiles env fps

/-- Spec-side description: the textual aggregation of the open errors —
each failing file contributes its error message plus a trailing space,
once, in attempt order. -/
def openErrString (env : StartEnv) : List String → String
  | [] => ""
  | f :: fs =>
    (match env.tailFile f with
     | .error e => e ++ " "
     | .ok _ => "") ++ openErrString env fs

/-- Spec-side description: the sessions that opened successfully, in
attempt order — none is rolled back by a sibling failure. -/
def openedFiles (env : StartEnv) : List String → List String
  | [] => []
  | f :: fs =>
    match env.tailFile f with
    | .error _ => openedFiles env fs
    | .ok t => t :: openedFiles env fs

/-! ## Concrete instances used by counterexamples and witnesses -/

def lC2 : LogParserPlugin :=
  { Files := ["dir/*"], FromBeginning := false,
    GrokParser := some ⟨Except.ok ()⟩ }

def envC2 : StartEnv :=
  { globCompile := fun p =>
      if p = "dir/*" then .ok ["a.log", "b.log"] else .error "bad glob"
    tailFile := fun f =>
      if f = "b.log" then .error "open b.log: permission denied"
      else .ok f }

def lC5 : LogParserPlugin :=
  { Files := ["bad[", "ok.log"], FromBeginning := false,
    GrokParser := some ⟨Except.ok ()⟩ }

def lC5b : LogParserPlugin :=
  { Files := [], FromBeginning := false,
    GrokParser := some ⟨Except.error "bad pattern"⟩ }

def envC5 : StartEnv :=
  { globCompile := fun p =>
      if p = "ok.log" then .ok ["ok.log"]
      else .error "unexpected end of input"
    tailFile := fun f => .ok f }

def lC6 : LogParserPlugin :=
  { Files := ["dir/*"], FromBeginning := false, GrokParser := none }

def envC6 : StartEnv :=
  { globCompile := fun _ => .ok ["a.log"], tailFile := fun f => .ok f }

/-- The configuration of the C1 scenario: int-field filter
`["response"]`, float-field filter `["bytes"]`, nothing else. -/
def gpC1 : GrokParser :=
  { Pattern := "pat", CustomPatterns := "", CustomPatternFile := "",
    TagKeys := [], FieldKeysStr := [],
    FieldKeysInt := ["response"], FieldKeysFloat := ["bytes"] }

/-- A grok engine whose grammar yields the captures
`response="200"`, `bytes="612"` on every line. -/
def envC1 : GrokEnv :=
  { addPatternsFromPath := fun _ => .ok ()
    addPatternsFromMap := fun _ => .ok ()
    parse := fun _ _ => .ok [("response", "200"), ("bytes", "612")] }

/-- The parser `gpC1.compile envC1` produces. -/
def pC1 : CompiledParser :=
  { pattern := "pat", g := envC1.parse
    tagKeys := none, fieldKeysStr := none
    fieldKeysInt := some (compileFilter ["response"])
    fieldKeysFloat := some (compileFilter ["bytes"]) }

/-- A compiled parser whose grammar matches no line. -/
def pC3 : CompiledParser :=
  { pattern := "pat", g := fun _ _ => .error "grok: line does not match"
    tagKeys := none, fieldKeysStr := none
    fieldKeysInt := none, fieldKeysFloat := none }

/-- Custom-pattern text whose last line is a non-comment line with no
space (no regex fragment). -/
def gpC4 : GrokParser :=
  { Pattern := "pat"
    CustomPatterns := "# comment line\n\n  DURATION [0-9]+ms  \nFOO"
    CustomPatternFile := ""
    TagKeys := [], FieldKeysStr := [], FieldKeysInt := [],
    FieldKeysFloat := [] }

def envC4 : GrokEnv :=
  { addPatternsFromPath := fun _ => .ok ()
    addPatternsFromMap := fun _ => .ok ()
    parse := fun _ _ => .ok [] }

/-- A compiled parser with tag filter `["clientip"]` whose int-field
filter *also* matches `clientip`, and a grammar yielding the spec's
scenario captures. -/
def pC7 : CompiledParser :=
  { pattern := "pat"
    g := fun _ _ => .ok [("clientip", "10.0.0.1"), ("verb", "GET")]
    tagKeys := some (compileFilter ["clientip"])
    fieldKeysStr := none
    fieldKeysInt := some (compileFilter ["clientip"])
    fieldKeysFloat := none }

/-- A compiled parser with no filters whose grammar yields captures
with an empty name and an empty value. -/
def pC8 : CompiledParser :=
  { pattern := "pat"
    g := fun _ _ => .ok [("", "x"), ("verb", ""), ("resp", "200")]
    tagKeys := none, fieldKeysStr := none
    fieldKeysInt := none, fieldKeysFloat := none }

/-- A grok parser configuration with all four key-filter lists
empty. -/
def gpC10 : GrokParser :=
  { Pattern := "pat", CustomPatterns := "", CustomPatternFile := "",
    TagKeys := [], FieldKeysStr := [], FieldKeysInt := [],
    FieldKeysFloat := [] }

def envC10 : GrokEnv :=
  { addPatternsFromPath := fun _ => .ok ()
    addPatternsFromMap := fun _ => .ok ()
    parse := fun _ _ => .ok [("verb", "GET"), ("resp", "200")] }

/-- The compiled parser `Compile` produces when all four key-filter
lists are empty and no custom patterns are configured: every matcher is
left unset. -/
def emptyFiltersParser (gp : GrokParser) (env : GrokEnv) : CompiledParser :=
  { pattern := gp.Pattern, g := env.parse, tagKeys := none,
    fieldKeysStr := none, fieldKeysInt := none, fieldKeysFloat := none }

/-! ## Association-list lemmas -/

theorem mapGet_mapSet_self (m : List (String × String)) (k v : String) :
    mapGet (mapSet m k v) k = some v := by
  induction m with
  | nil => simp [mapSet, mapGet]
  | cons hd tl ih =>
    obtain ⟨k0, v0⟩ := hd
    by_cases h : k0 = k
    · simp [mapSet, mapGet, h]
    · simp [mapSet, mapGet, h, ih]

theorem mapGet_mapSet_ne (m : List (String × String)) (k' k v : String)
    (h : k' ≠ k) : mapGet (mapSet m k' v) k = mapGet m k := by
  induction m with
  | nil => simp [mapSet, mapGet, h]
  | cons hd tl ih =>
    obtain ⟨k0, v0⟩ := hd
    by_cases h0 : k0 = k'
    · subst h0
      simp [mapSet, mapGet, h]
    · simp [mapSet, mapGet, h0]
      by_cases h1 : k0 = k
      · simp [mapGet, h1]
      · simp [mapGet, h1, ih]

theorem openErrString_append (env : StartEnv) (a b : List String) :
    openErrString env (a ++ b) = openErrString env a ++ openErrString env b := by
  induction a with
  | nil => simp [openErrString]
  | cons f fs ih =>
    simp only [List.cons_append, openErrString, List.append_eq, ih,
      String.append_assoc]

theorem openedFiles_append (env : StartEnv) (a b : List String) :
    openedFiles env (a ++ b) = openedFiles env a ++ openedFiles env b := by
  induction a with
  | nil => simp [openedFiles]
  | cons f fs ih =>
    simp only [List.cons_append, openedFiles]
    cases env.tailFile f <;> simp [ih]

theorem foldl_tailOne_eq (env : StartEnv) (files : List String)
    (s : String) (ts : List String) :
    files.foldl (tailOne env) (s, ts) =
      (s ++ openErrString env files, ts ++ openedFiles env files) := by
  induction files generalizing s ts with
  | nil => simp [openErrString, openedFiles]
  | cons f fs ih =>
    simp only [List.foldl_cons, tailOne]
    cases h : env.tailFile f with
    | error e =>
      simp only [ih, openErrString, openedFiles, h, String.append_assoc]
    | ok t =>
      simp only [ih, openErrString, openedFiles, h, String.empty_append,
        List.append_assoc, List.singleton_append]

theorem foldl_tailPattern_eq (env : StartEnv) (pats : List String)
    (s : String) (ts : List String) :
    pats.foldl (tailPattern env) (s, ts) =
      (s ++ openErrString env (resolvedFiles env pats),
       ts ++ openedFiles env (resolvedFiles env pats)) := by
  induction pats generalizing s ts with
  | nil => simp [resolvedFiles, openErrString, openedFiles]
  | cons fp fps ih =>
    simp only [List.foldl_cons, tailPattern, resolvedFiles]
    cases h : env.globCompile fp with
    | error e =>
      simp only [ih, List.nil_append]
    | ok files =>
      simp only [foldl_tailOne_eq, ih, openErrString_append, openedFiles_append,
        String.append_assoc, List.append_assoc]

theorem activeParsers_isEmpty_false (l : LogParserPlugin)
    (h : activeParsers l ≠ []) : (activeParsers l).isEmpty = false := by
  cases hc : activeParsers l with
  | nil => exact absurd hc h
  | cons a as => rfl

/-- C2: when `Start` is given several glob-resolved files and some fail
to open, the failures are collected by concatenating their error
messages (each followed by a space) into one combined error returned
only after every file has been attempted; every successfully opened
tail session stays active (none is rolled back), and each file is
attempted exactly once (no retry) — the aggregate error and session
list are exactly one contribution per resolved file, in attempt
order. -/
theorem start_collects_open_failures (l : LogParserPlugin) (env : StartEnv)
    (h1 : activeParsers l ≠ [])
    (h2 : compileAll (activeParsers l) = .ok ()) :
    (start l env).tailers = openedFiles env (resolvedFiles env l.Files) ∧
    (start l env).err =
      (if openErrString env (resolvedFiles env l.Files) = "" then none
       else some (openErrString env (resolvedFiles env l.Files))) := by
  have hne := activeParsers_isEmpty_false l h1
  simp only [start, hne, Bool.false_eq_true, if_false, h2,
    foldl_tailPattern_eq, String.empty_append, List.nil_append]
  refine ⟨by trivial, ?_⟩
  by_cases hE : openErrString env (resolvedFiles env l.Files) = "" <;>
    simp [hE]

theorem start_collects_open_failures_witness :
    (activeParsers lC2 ≠ [] ∧
     compileAll (activeParsers lC2) = Except.ok ()) ∧
    ((start lC2 envC2).tailers =
       openedFiles envC2 (resolvedFiles envC2 lC2.Files) ∧
     (start lC2 envC2).err =
       (if openErrString envC2 (resolvedFiles envC2 lC2.Files) = "" then none
        else some (openErrString envC2 (resolvedFiles envC2 lC2.Files)))) ∧
    start lC2 envC2 =
      { err := some "open b.log: permission denied ", tailers := ["a.log"] } := by
  have h1 : activeParsers lC2 ≠ [] := by simp [activeParsers, lC2]
  exact ⟨⟨h1, rfl⟩, start_collects_open_failures lC2 envC2 h1 rfl, by decide⟩

/-- C6: when the set of active parsers resolved at `Start` is empty
(the grok sub-table is absent, so the reflection loop finds no
`LogParser` field), `Start` returns the fatal "no parsers defined"
error and opens no tail sessions. -/
theorem start_no_parsers (l : LogParserPlugin) (env : StartEnv)
    (h : l.GrokParser = none) :
    start l env = { err := some noParsersMsg, tailers := [] } := by
  simp [start, activeParsers, h, List.isEmpty]

theorem start_no_parsers_witness :
    lC6.GrokParser = none ∧
    start lC6 envC6 = { err := some noParsersMsg, tailers := [] } :=
  ⟨rfl, start_no_parsers lC6 envC6 rfl⟩

/-- C5 (amended): a parser whose grammar or classifier fails to compile
aborts `Start` entirely — the error is returned and no dispatcher is
spawned for any session.  A file-glob string that fails to compile,
however, does not abort `Start`: the failure is only logged, the
pattern contributes no sessions, and `Start` behaves exactly as if the
pattern were absent. -/
theorem start_compile_abort_and_glob_no_abort
    (l l2 : LogParserPlugin) (env : StartEnv) (e : String)
    (pre post : List String) (pat : String)
    (h1 : activeParsers l ≠ [])
    (h2 : compileAll (activeParsers l) = .error e)
    (h3 : l2.Files = pre ++ pat :: post)
    (h4 : ∃ e2, env.globCompile pat = .error e2) :
    start l env = { err := some e, tailers := [] } ∧
    start l2 env = start { l2 with Files := pre ++ post } env := by
  constructor
  · have hne := activeParsers_isEmpty_false l h1
    simp [start, hne, h2]
  · obtain ⟨e2, he⟩ := h4
    have hfold :
        (pre ++ pat :: post).foldl (tailPattern env) ("", ([] : List String)) =
          (pre ++ post).foldl (tailPattern env) ("", []) := by
      rw [List.foldl_append, List.foldl_cons, List.foldl_append]
      simp [tailPattern, he]
    simp only [start, h3, hfold]
    rfl

/-- C5 counterexample: with file patterns `["bad[", "ok.log"]` where
the first fails to glob-compile, `Start` does not abort: it returns no
error at all and still opens (and spawns a dispatcher for) the session
of the second pattern — refuting "every setup-time compile failure …
aborts Start entirely" for the file-glob case. -/
theorem start_glob_failure_not_abort_counterexample :
    envC5.globCompile "bad[" = Except.error "unexpected end of input" ∧
    start lC5 envC5 = { err := none, tailers := ["ok.log"] } :=
  ⟨rfl, by decide⟩

theorem start_compile_abort_and_glob_no_abort_witness :
    (activeParsers lC5b ≠ [] ∧
     compileAll (activeParsers lC5b) = Except.error "bad pattern" ∧
     lC5.Files = [] ++ "bad[" :: ["ok.log"] ∧
     (∃ e2, envC5.globCompile "bad[" = Except.error e2)) ∧
    start lC5b envC5 = { err := some "bad pattern", tailers := [] } ∧
    start lC5 envC5 = start { lC5 with Files := [] ++ ["ok.log"] } envC5 := by
  have h1 : activeParsers lC5b ≠ [] := by simp [activeParsers, lC5b]
  have h := start_compile_abort_and_glob_no_abort lC5b lC5 envC5
    "bad pattern" [] ["ok.log"] "bad[" h1 rfl rfl
    ⟨"unexpected end of input", rfl⟩
  exact ⟨⟨h1, rfl, rfl, ⟨"unexpected end of input", rfl⟩⟩, h.1, h.2⟩

/-! ## Classification lemmas for `ParseLine` -/

theorem fieldPhase_fst (p : CompiledParser)
    (acc : List (String × String) × List (String × String))
    (c : String × String) : (fieldPhase p acc c).1 = acc.1 := by
  unfold fieldPhase
  repeat' split
  all_goals rfl

theorem processCapture_skip (p : CompiledParser)
    (acc : List (String × String) × List (String × String))
    (c : String × String) (h : c.1 = "" ∨ c.2 = "") :
    processCapture p acc c = acc := by
  unfold processCapture
  rw [if_pos h]

theorem processCapture_preserve_ne (p : CompiledParser)
    (acc : List (String × String) × List (String × String))
    (c : String × String) (k : String) (h : c.1 ≠ k) :
    mapGet (processCapture p acc c).1 k = mapGet acc.1 k ∧
    mapGet (processCapture p acc c).2 k = mapGet acc.2 k := by
  have hs : ∀ m v, mapGet (mapSet m c.1 v) k = mapGet m k :=
    fun m v => mapGet_mapSet_ne m c.1 k v h
  unfold processCapture fieldPhase
  repeat' split
  all_goals simp [hs]

theorem nodup_keys_eq {cs : List (String × String)}
    (hnd : (cs.map Prod.fst).Nodup) {a b : String × String}
    (ha : a ∈ cs) (hb : b ∈ cs) (h : a.1 = b.1) : a = b := by
  induction cs with
  | nil => cases ha
  | cons c rest ih =>
    simp only [List.map_cons, List.nodup_cons] at hnd
    rcases List.mem_cons.mp ha with ha1 | ha2 <;>
      rcases List.mem_cons.mp hb with hb1 | hb2
    · rw [ha1, hb1]
    · exfalso
      apply hnd.1
      rw [← ha1, h]
      exact List.mem_map_of_mem Prod.fst hb2
    · exfalso
      apply hnd.1
      rw [← hb1, ← h]
      exact List.mem_map_of_mem Prod.fst ha2
    · exact ih hnd.2 ha2 hb2

theorem foldl_preserve_not_mem (p : CompiledParser)
    (cs : List (String × String)) (k : String)
    (h : ∀ c ∈ cs, c.1 ≠ k) :
    ∀ t f : List (String × String),
      mapGet (cs.foldl (processCapture p) (t, f)).1 k = mapGet t k ∧
      mapGet (cs.foldl (processCapture p) (t, f)).2 k = mapGet f k := by
  induction cs with
  | nil => intro t f; exact ⟨rfl, rfl⟩
  | cons c rest ih =>
    intro t f
    simp only [List.foldl_cons]
    have hc := h c (List.mem_cons_self c rest)
    have hrest : ∀ c' ∈ rest, c'.1 ≠ k :=
      fun c' hm => h c' (List.mem_cons_of_mem c hm)
    obtain ⟨ht, hf⟩ := processCapture_preserve_ne p (t, f) c k hc
    have hpair : processCapture p (t, f) c =
        ((processCapture p (t, f) c).1, (processCapture p (t, f) c).2) := rfl
    rw [hpair]
    obtain ⟨iht, ihf⟩ := ih hrest _ _
    exact ⟨iht.trans ht, ihf.trans hf⟩

theorem foldl_preserve_skipped (p : CompiledParser)
    (cs : List (String × String)) (k : String)
    (h : ∀ c ∈ cs, c.1 = k → c.1 = "" ∨ c.2 = "") :
    ∀ t f : List (String × String),
      mapGet (cs.foldl (processCapture p) (t, f)).1 k = mapGet t k ∧
      mapGet (cs.foldl (processCapture p) (t, f)).2 k = mapGet f k := by
  induction cs with
  | nil => intro t f; exact ⟨rfl, rfl⟩
  | cons c rest ih =>
    intro t f
    simp only [List.foldl_cons]
    have hrest : ∀ c' ∈ rest, c'.1 = k → c'.1 = "" ∨ c'.2 = "" :=
      fun c' hm => h c' (List.mem_cons_of_mem c hm)
    by_cases hck : c.1 = k
    · rw [processCapture_skip p (t, f) c (h c (List.mem_cons_self c rest) hck)]
      exact ih hrest t f
    · obtain ⟨ht, hf⟩ := processCapture_preserve_ne p (t, f) c k hck
      have hpair : processCapture p (t, f) c =
          ((processCapture p (t, f) c).1, (processCapture p (t, f) c).2) := rfl
      rw [hpair]
      obtain ⟨iht, ihf⟩ := ih hrest _ _
      exact ⟨iht.trans ht, ihf.trans hf⟩

theorem processCapture_route (p : CompiledParser)
    (t f : List (String × String)) (k v : String)
    (hk : k ≠ "") (hv : v ≠ "") :
    processCapture p (t, f) (k, v) =
      match route p k with
      | .toTag => (mapSet t k v, f)
      | .toField => (t, mapSet f k v)
      | .dropped => (t, f) := by
  have hcond : ¬ (((k, v) : String × String).1 = "" ∨
      ((k, v) : String × String).2 = "") := by
    simp [hk, hv]
  unfold processCapture route fieldRoute fieldPhase
  rw [if_neg hcond]
  rcases p.tagKeys with _ | m1 <;> rcases p.fieldKeysInt with _ | m2 <;>
    rcases p.fieldKeysFloat with _ | m3 <;> rcases p.fieldKeysStr with _ | m4 <;>
    simp only [] <;> split_ifs <;> rfl

theorem foldl_route_at (p : CompiledParser) (cs : List (String × String))
    (k v : String) (hk : k ≠ "") (hv : v ≠ "")
    (hnd : (cs.map Prod.fst).Nodup) (hmem : (k, v) ∈ cs) :
    ∀ t f : List (String × String),
      mapGet (cs.foldl (processCapture p) (t, f)).1 k =
        (if route p k = .toTag then some v else mapGet t k) ∧
      mapGet (cs.foldl (processCapture p) (t, f)).2 k =
        (if route p k = .toField then some v else mapGet f k) := by
  induction cs with
  | nil => cases hmem
  | cons c rest ih =>
    intro t f
    simp only [List.foldl_cons]
    simp only [List.map_cons, List.nodup_cons] at hnd
    by_cases hck : c.1 = k
    · have hceq : c = (k, v) := by
        rcases List.mem_cons.mp hmem with h1 | h2
        · exact h1.symm
        · exfalso
          apply hnd.1
          rw [hck]
          exact List.mem_map_of_mem Prod.fst h2
      subst hceq
      have hnotin : ∀ c' ∈ rest, c'.1 ≠ k := by
        intro c' hm hEq
        apply hnd.1
        have hin : c'.1 ∈ List.map Prod.fst rest :=
          List.mem_map_of_mem Prod.fst hm
        rw [hEq] at hin
        exact hin
      rw [processCapture_route p t f k v hk hv]
      cases hr : route p k with
      | toTag =>
        obtain ⟨h1', h2'⟩ :=
          foldl_preserve_not_mem p rest k hnotin (mapSet t k v) f
        simp [h1', h2', mapGet_mapSet_self]
      | toField =>
        obtain ⟨h1', h2'⟩ :=
          foldl_preserve_not_mem p rest k hnotin t (mapSet f k v)
        simp [h1', h2', mapGet_mapSet_self]
      | dropped =>
        obtain ⟨h1', h2'⟩ := foldl_preserve_not_mem p rest k hnotin t f
        simp [h1', h2']
    · have hmem' : (k, v) ∈ rest := by
        rcases List.mem_cons.mp hmem with h1 | h2
        · exfalso
          apply hck
          rw [← h1]
        · exact h2
      obtain ⟨ht, hf⟩ := processCapture_preserve_ne p (t, f) c k hck
      have hpair : processCapture p (t, f) c =
          ((processCapture p (t, f) c).1, (processCapture p (t, f) c).2) := rfl
      rw [hpair]
      obtain ⟨ih1, ih2⟩ := ih hnd.2 hmem' _ _
      constructor
      · rw [ih1, ht]
      · rw [ih2, hf]

theorem foldl_tags_none (p : CompiledParser) (h : p.tagKeys = none)
    (cs : List (String × String)) :
    ∀ t f : List (String × String),
      (cs.foldl (processCapture p) (t, f)).1 = t := by
  induction cs with
  | nil => intro t f; rfl
  | cons c rest ih =>
    intro t f
    simp only [List.foldl_cons]
    have hstep : (processCapture p (t, f) c).1 = t := by
      by_cases hc : c.1 = "" ∨ c.2 = ""
      · rw [processCapture_skip p (t, f) c hc]
      · unfold processCapture
        rw [if_neg hc, h]
        exact fieldPhase_fst p (t, f) c
    have hpair : processCapture p (t, f) c =
        ((processCapture p (t, f) c).1, (processCapture p (t, f) c).2) := rfl
    rw [hpair, hstep]
    exact ih _ _

/-! ## Claim theorems for the grok parser -/

/-- C3: for every compiled grammar and every line that the grammar does
not match (the engine reports an error), `ParseLine` returns that
ParseError and produces no measurement — no partial measurement is
built. -/
theorem parseLine_no_match_error (p : CompiledParser) (line : String)
    (now : Nat) (e : String) (h : p.g p.pattern line = .error e) :
    parseLine p line now = .error e ∧
    ∀ m, parseLine p line now ≠ .ok m := by
  have hres : parseLine p line now = .error e := by
    unfold parseLine
    rw [h]
  refine ⟨hres, fun m hm => ?_⟩
  rw [hres] at hm
  cases hm

theorem parseLine_no_match_error_witness :
    pC3.g pC3.pattern "anything" = Except.error "grok: line does not match" ∧
    parseLine pC3 "anything" 0 = Except.error "grok: line does not match" :=
  ⟨rfl, (parseLine_no_match_error pC3 "anything" 0
    "grok: line does not match" rfl).1⟩

/-- C9: `ParseLine` is deterministic up to the timestamp — for every
compiled parser, parsing the identical literal line at two different
wall-clock instants yields identical tag maps and identical field maps
(and the same error behaviour). -/
theorem parseLine_deterministic (p : CompiledParser) (line : String)
    (t1 t2 : Nat) :
    (parseLine p line t1).map (fun m => (m.tags, m.fields)) =
      (parseLine p line t2).map (fun m => (m.tags, m.fields)) := by
  unfold parseLine
  cases p.g p.pattern line <;> rfl

/-- C1 counterexample: with int-field filter `["response"]` and
float-field filter `["bytes"]`, a line yielding `response="200"` and
`bytes="612"` does **not** place both keys into fields: the configured
int filter swallows `bytes` (the `continue` sits outside the `Match`
branch), so the resulting field map holds only `response`. -/
theorem classification_default_counterexample :
    gpC1.compile envC1 = GoResult.ok pC1 ∧
    (parseLine pC1 "10.0.0.1 GET /idx 200 612" 0).map Metric.fields =
      Except.ok [("response", "200")] ∧
    (parseLine pC1 "10.0.0.1 GET /idx 200 612" 0).map Metric.tags =
      Except.ok [] :=
  ⟨rfl, rfl, rfl⟩

/-- C1 (amended): classification checks the tag filter first (a match
wins, otherwise evaluation falls through); then only the first
*configured* field set in the order int > float > string is consulted —
the key is placed into the field map iff it matches that set and is
dropped otherwise; a key is stored as a default string field only when
no field set is configured at all.  In particular, with int-field
filter `["response"]` and float-field filter `["bytes"]`, `response`
lands in fields while `bytes` is dropped. -/
theorem parseLine_routing (p : CompiledParser) (line : String) (now : Nat)
    (cs : List (String × String)) (k v : String)
    (hg : p.g p.pattern line = .ok cs)
    (hnd : (cs.map Prod.fst).Nodup) (hmem : (k, v) ∈ cs)
    (hk : k ≠ "") (hv : v ≠ "") :
    ∃ m, parseLine p line now = .ok m ∧
      mapGet m.tags k = (if route p k = .toTag then some v else none) ∧
      mapGet m.fields k = (if route p k = .toField then some v else none) := by
  obtain ⟨h1, h2⟩ := foldl_route_at p cs k v hk hv hnd hmem [] []
  refine ⟨⟨"grok", (cs.foldl (processCapture p) ([], [])).1,
          (cs.foldl (processCapture p) ([], [])).2, now⟩, ?_, ?_, ?_⟩
  · unfold parseLine
    rw [hg]
  · simpa [mapGet] using h1
  · simpa [mapGet] using h2

theorem parseLine_routing_witness :
    pC1.g pC1.pattern "x" = Except.ok [("response", "200"), ("bytes", "612")] ∧
    route pC1 "bytes" = Route.dropped ∧
    (∃ m, parseLine pC1 "x" 0 = Except.ok m ∧
      mapGet m.tags "bytes" =
        (if route pC1 "bytes" = .toTag then some "612" else none) ∧
      mapGet m.fields "bytes" =
        (if route pC1 "bytes" = .toField then some "612" else none)) := by
  refine ⟨rfl, by decide, ?_⟩
  exact parseLine_routing pC1 "x" 0 [("response", "200"), ("bytes", "612")]
    "bytes" "612" rfl (by decide) (by decide) (by decide) (by decide)

/-- C7: a capture whose name matches the configured tag-key filter is
placed into the tag map and never into the field map, even when the
name also matches an int-, float-, or string-field filter (tag has top
priority). -/
theorem parseLine_tag_top_priority (p : CompiledParser) (line : String)
    (now : Nat) (cs : List (String × String)) (m : String → Bool)
    (k v : String)
    (htag : p.tagKeys = some m) (hm : m k = true)
    (hg : p.g p.pattern line = .ok cs)
    (hnd : (cs.map Prod.fst).Nodup) (hmem : (k, v) ∈ cs)
    (hk : k ≠ "") (hv : v ≠ "") :
    ∃ mtr, parseLine p line now = .ok mtr ∧
      mapGet mtr.tags k = some v ∧ mapGet mtr.fields k = none := by
  have hr : route p k = .toTag := by
    unfold route
    rw [htag]
    simp [hm]
  obtain ⟨h1, h2⟩ := foldl_route_at p cs k v hk hv hnd hmem [] []
  rw [hr] at h1 h2
  refine ⟨⟨"grok", (cs.foldl (processCapture p) ([], [])).1,
          (cs.foldl (processCapture p) ([], [])).2, now⟩, ?_, ?_, ?_⟩
  · unfold parseLine
    rw [hg]
  · simpa [mapGet] using h1
  · simpa [mapGet] using h2

theorem parseLine_tag_top_priority_witness :
    (pC7.tagKeys = some (compileFilter ["clientip"]) ∧
     compileFilter ["clientip"] "clientip" = true ∧
     pC7.fieldKeysInt = some (compileFilter ["clientip"])) ∧
    (∃ mtr, parseLine pC7 "10.0.0.1 GET" 0 = Except.ok mtr ∧
      mapGet mtr.tags "clientip" = some "10.0.0.1" ∧
      mapGet mtr.fields "clientip" = none) := by
  refine ⟨⟨rfl, by decide, rfl⟩, ?_⟩
  exact parseLine_tag_top_priority pC7 "10.0.0.1 GET" 0
    [("clientip", "10.0.0.1"), ("verb", "GET")] (compileFilter ["clientip"])
    "clientip" "10.0.0.1" rfl (by decide) rfl (by decide) (by decide)
    (by decide) (by decide)

/-- C8: for every matched line, every capture whose name is the empty
string or whose value is the empty string is excluded from both the tag
map and the field map of the resulting measurement. -/
theorem parseLine_excludes_empty (p : CompiledParser) (line : String)
    (now : Nat) (cs : List (String × String)) (k v : String)
    (hg : p.g p.pattern line = .ok cs)
    (hnd : (cs.map Prod.fst).Nodup) (hmem : (k, v) ∈ cs)
    (hempty : k = "" ∨ v = "") :
    ∃ mtr, parseLine p line now = .ok mtr ∧
      mapGet mtr.tags k = none ∧ mapGet mtr.fields k = none := by
  have hskip : ∀ c ∈ cs, c.1 = k → c.1 = "" ∨ c.2 = "" := by
    intro c hc hck
    have hce : c = (k, v) := nodup_keys_eq hnd hc hmem hck
    rcases hempty with h | h
    · left
      rw [hck, h]
    · right
      rw [hce]
      exact h
  obtain ⟨h1, h2⟩ := foldl_preserve_skipped p cs k hskip [] []
  refine ⟨⟨"grok", (cs.foldl (processCapture p) ([], [])).1,
          (cs.foldl (processCapture p) ([], [])).2, now⟩, ?_, ?_, ?_⟩
  · unfold parseLine
    rw [hg]
  · simpa [mapGet] using h1
  · simpa [mapGet] using h2

theorem parseLine_excludes_empty_witness :
    pC8.g pC8.pattern "x" =
      Except.ok [("", "x"), ("verb", ""), ("resp", "200")] ∧
    ("verb" = "" ∨ "" = "") ∧
    (∃ mtr, parseLine pC8 "x" 0 = Except.ok mtr ∧
      mapGet mtr.tags "verb" = none ∧ mapGet mtr.fields "verb" = none) := by
  refine ⟨rfl, Or.inr rfl, ?_⟩
  exact parseLine_excludes_empty pC8 "x" 0
    [("", "x"), ("verb", ""), ("resp", "200")] "verb" "" rfl (by decide)
    (by decide) (Or.inr rfl)

/-- C10: for a parser whose four key-filter lists are all empty (and
with no custom patterns configured), `Compile` leaves all four matchers
unset, and `ParseLine` then places every capture with non-empty name
and non-empty value into the field map as a string value, producing no
tags at all. -/
theorem compile_empty_filters (gp : GrokParser) (env : GrokEnv)
    (h1 : gp.TagKeys = []) (h2 : gp.FieldKeysStr = [])
    (h3 : gp.FieldKeysInt = []) (h4 : gp.FieldKeysFloat = [])
    (h5 : gp.CustomPatterns = "") (h6 : gp.CustomPatternFile = "") :
    gp.compile env = GoResult.ok (emptyFiltersParser gp env) ∧
    (emptyFiltersParser gp env).tagKeys = none ∧
    (emptyFiltersParser gp env).fieldKeysStr = none ∧
    (emptyFiltersParser gp env).fieldKeysInt = none ∧
    (emptyFiltersParser gp env).fieldKeysFloat = none ∧
    ∀ line now cs, env.parse gp.Pattern line = Except.ok cs →
      ∃ mtr, parseLine (emptyFiltersParser gp env) line now = Except.ok mtr ∧
        mtr.tags = [] ∧
        ∀ k v, (k, v) ∈ cs → (cs.map Prod.fst).Nodup → k ≠ "" → v ≠ "" →
          mapGet mtr.fields k = some v := by
  refine ⟨?_, rfl, rfl, rfl, rfl, ?_⟩
  · simp [GrokParser.compile, emptyFiltersParser, h1, h2, h3, h4, h5, h6]
  · intro line now cs hg
    have htags :=
      foldl_tags_none (emptyFiltersParser gp env) rfl cs [] []
    refine ⟨⟨"grok",
            (cs.foldl (processCapture (emptyFiltersParser gp env)) ([], [])).1,
            (cs.foldl (processCapture (emptyFiltersParser gp env)) ([], [])).2,
            now⟩, ?_, htags, ?_⟩
    · unfold parseLine
      rw [show (emptyFiltersParser gp env).g
            (emptyFiltersParser gp env).pattern line = Except.ok cs from hg]
    · intro k v hmem hnd hk hv
      have hr : route (emptyFiltersParser gp env) k = .toField := rfl
      obtain ⟨_, hf⟩ :=
        foldl_route_at (emptyFiltersParser gp env) cs k v hk hv hnd hmem [] []
      rw [hr] at hf
      simpa [mapGet] using hf

theorem compile_empty_filters_witness :
    (gpC10.TagKeys = [] ∧ gpC10.FieldKeysStr = [] ∧
     gpC10.FieldKeysInt = [] ∧ gpC10.FieldKeysFloat = [] ∧
     gpC10.CustomPatterns = "" ∧ gpC10.CustomPatternFile = "") ∧
    (gpC10.compile envC10 = GoResult.ok (emptyFiltersParser gpC10 envC10) ∧
     (emptyFiltersParser gpC10 envC10).tagKeys = none ∧
     (emptyFiltersParser gpC10 envC10).fieldKeysStr = none ∧
     (emptyFiltersParser gpC10 envC10).fieldKeysInt = none ∧
     (emptyFiltersParser gpC10 envC10).fieldKeysFloat = none ∧
     ∀ line now cs, envC10.parse gpC10.Pattern line = Except.ok cs →
       ∃ mtr, parseLine (emptyFiltersParser gpC10 envC10) line now =
           Except.ok mtr ∧
         mtr.tags = [] ∧
         ∀ k v, (k, v) ∈ cs → (cs.map Prod.fst).Nodup → k ≠ "" → v ≠ "" →
           mapGet mtr.fields k = some v) :=
  ⟨⟨rfl, rfl, rfl, rfl, rfl, rfl⟩,
   compile_empty_filters gpC10 envC10 rfl rfl rfl rfl rfl rfl⟩

/-- C4 (code bug): `addCustomPatterns` does trim each line, skip blank
and `#` lines and split kept lines at the first space; but on a
non-comment line lacking a fragment (no space at all, e.g. `FOO`) the
Go code indexes `names[1]` out of range and panics — it does not fail
with a CompileError.  The third conjunct shows a well-formed input
being parsed as the claim describes. -/
theorem addCustomPatterns_missing_fragment_panics :
    buildFilePatterns (goScanLines gpC4.CustomPatterns) [] =
      GoResult.panicked "runtime error: index out of range" ∧
    gpC4.compile envC4 =
      GoResult.panicked "runtime error: index out of range" ∧
    buildFilePatterns (goScanLines "# c\n\n  NAME [a-z]+  \n") [] =
      GoResult.ok [("NAME", "[a-z]+")] :=
  ⟨by decide, rfl, by decide⟩

end Logparser
